import Mathlib

/-!
# mediumkube: the network reconciliation daemon (`daemon/main.go`)

A shallow embedding of the daemon's firewall rule manager, bridge state
manager, subnet derivation and reconciliation loop, with the properties the
specification states about them.

Conventions of the embedding

* Go strings are Lean `String`s; a `[]string` is a `List String`.
* The kernel side (netlink links and addresses, the packet-filter tables) is
  explicit state. A call into `go-iptables` or `netlink` may fail; which calls
  fail is given by a record of fault flags passed to the operation, and a call
  that fails leaves the kernel state as it was.
* A Go run-time panic (nil dereference, index out of range) is the result
  `none`.
-/

namespace Mediumkube

/-! ## Data model -/

/-- Token sequence of one packet-filter rule (`rulespec ...string`). -/
abbrev Rule := List String

/-- `type IPMode int`: how rules are inserted into iptables. -/
abbrev IPMode := Int

/-- `IPModAPP`: appends the rule to the chain. -/
def IPModAPP : IPMode := 1

/-- `IPModPREP`: prepends the rule. -/
def IPModPREP : IPMode := 2

/-- The constant `table`. -/
def table : String := "filter"

/-- `common.Bridge` as `daemon/main.go` uses it: interface name, host-facing
interface and CIDR address. -/
structure Bridge where
  Name : String
  Host : String
  Inet : String

/-- An IPv4 interface address (`netlink.Addr`): the four octets of the IP, the
number of leading ones of the mask (`Mask.Size()`) and the label. -/
structure Addr where
  ip : Nat × Nat × Nat × Nat
  ones : Nat
  label : String
deriving DecidableEq

/-- Live packet-filter state: the ordered rules of each chain of each table. -/
abbrev Netfilter := String → String → List Rule

/-- Process and kernel state the daemon works on: the package variables `on`
(here `isOn`, `on` being reserved in Lean) and `ruleRegistry`, the network
links by name (`none`: no such interface, `some l`: the interface exists and
carries the IPv4 addresses `l`), and the packet-filter tables. -/
structure State where
  isOn : Bool
  ruleRegistry : List (List String)
  links : String → Option (List Addr)
  filter : Netfilter

/-- Daemon start: `on = true`, empty registry, over the given kernel state. -/
def State.start (links : String → Option (List Addr)) (filter : Netfilter) : State :=
  { isOn := true, ruleRegistry := [], links := links, filter := filter }

/-! ## The packet-filter control surface (`go-iptables`) -/

/-- Which `go-iptables` calls return an error (`true`: the call fails). -/
structure IptFaults where
  newErr : Bool
  existsErr : String → Rule → Bool
  appendErr : String → Rule → Bool
  insertErr : String → Rule → Bool
  deleteErr : String → Rule → Bool

/-- Every `go-iptables` call succeeds. -/
def IptFaults.none : IptFaults :=
  { newErr := false
    existsErr := fun _ _ => false
    appendErr := fun _ _ => false
    insertErr := fun _ _ => false
    deleteErr := fun _ _ => false }

/-- Replace the rules of one chain. -/
def setChain (nf : Netfilter) (t c : String) (rs : List Rule) : Netfilter :=
  fun t1 c1 => if t1 = t ∧ c1 = c then rs else nf t1 c1

/-- `iptable.Exists(table, chain, rule...)`: the rule is in the chain. -/
def iptExists (nf : Netfilter) (t c : String) (r : Rule) : Bool :=
  decide (r ∈ nf t c)

/-- `iptable.Append(table, chain, rule...)`: add at the tail. -/
def iptAppend (nf : Netfilter) (t c : String) (r : Rule) : Netfilter :=
  setChain nf t c (nf t c ++ [r])

/-- `iptable.Insert(table, chain, pos, rule...)`: the rule becomes rule number
`pos` (counted from 1) of the chain; a position outside `1 .. length + 1` is
refused and changes nothing. -/
def iptInsert (nf : Netfilter) (t c : String) (pos : Nat) (r : Rule) : Netfilter :=
  if 1 ≤ pos ∧ pos ≤ (nf t c).length + 1 then
    setChain nf t c ((nf t c).take (pos - 1) ++ r :: (nf t c).drop (pos - 1))
  else nf

/-- `iptable.Delete(table, chain, rule...)`: remove the first matching rule. -/
def iptDelete (nf : Netfilter) (t c : String) (r : Rule) : Netfilter :=
  setChain nf t c ((nf t c).erase r)

/-! ## Helpers of package `utils` -/

/-- Modelled from the spec: `utils.Contains` is not among the sources; it is
membership of a string in a slice of strings. -/
def Contains (slice : List String) (target : String) : Bool :=
  slice.any (fun v => decide (v = target))

/-- Modelled from the spec: `utils.ContainsT` is not among the sources; it is
membership of a token sequence in a slice of token sequences, compared
element by element. -/
def ContainsT (slice : List (List String)) (target : List String) : Bool :=
  slice.any (fun v => decide (v = target))

/-! ## Firewall rule manager -/

/-- The marker comment appended to every rule the daemon installs. -/
def marker : List String :=
  ["-m", "comment", "--comment", "Auto generated by mediumkubed"]

/-- `insertRuleIfNotExists(chain, mode, rules...)`. -/
def insertRuleIfNotExists (f : IptFaults) (chain : String) (mode : IPMode)
    (rules : List String) (s : State) : State :=
  let rules := rules ++ marker
  let s : State :=
    if !ContainsT s.ruleRegistry rules then
      { s with ruleRegistry := s.ruleRegistry ++ [chain :: rules] }
    else s
  if f.newErr then s
  else if f.existsErr chain rules then s
  else if !iptExists s.filter table chain rules then
    if mode = IPModAPP then
      if f.appendErr chain rules then s
      else { s with filter := iptAppend s.filter table chain rules }
    else if mode = IPModPREP then
      if f.insertErr chain rules then s
      else { s with filter := iptInsert s.filter table chain 1 rules }
    else s
  else s

/-- `_forwardRuleIn`. -/
def _forwardRuleIn (bridge : Bridge) : List String :=
  ["-s", bridge.Inet, "-i", bridge.Name, "-j", "ACCEPT"]

/-- `_forwardRuleOut`. -/
def _forwardRuleOut (bridge : Bridge) : List String :=
  ["-d", bridge.Inet, "-o", bridge.Name, "-m", "conntrack",
   "--ctstate", "RELATED,ESTABLISHED", "-j", "ACCEPT"]

/-- `_forwardRuleIO`. -/
def _forwardRuleIO (bridge : Bridge) : List String :=
  ["-i", bridge.Name, "-o", bridge.Name, "-j", "ACCEPT"]

/-- `_forwardRejectICMPUnreachableIn`. -/
def _forwardRejectICMPUnreachableIn (bridge : Bridge) : List String :=
  ["-i", bridge.Name, "-j", "REJECT", "--reject-with", "icmp-port-unreachable"]

/-- `_forwardRejectICMPUnreachableOut`. -/
def _forwardRejectICMPUnreachableOut (bridge : Bridge) : List String :=
  ["-o", bridge.Name, "-j", "REJECT", "--reject-with", "icmp-port-unreachable"]

/-- `_dhcpIn`. -/
def _dhcpIn (bridge : Bridge) : List String :=
  ["-i", bridge.Name, "-p", "udp", "-m", "udp", "--dport", "67", "-j", "ACCEPT"]

/-- `_dhcpOut`. -/
def _dhcpOut (bridge : Bridge) : List String :=
  ["-o", bridge.Name, "-p", "udp", "-m", "udp", "--sport", "67", "-j", "ACCEPT"]

/-- `_dnsIn`. -/
def _dnsIn (bridge : Bridge) (protocol : String) : List String :=
  ["-i", bridge.Name, "-p", protocol, "-m", protocol, "--dport", "53", "-j", "ACCEPT"]

/-- `_dnsOut`. -/
def _dnsOut (bridge : Bridge) (protocol : String) : List String :=
  ["-o", bridge.Name, "-p", protocol, "-m", protocol, "--dport", "53", "-j", "ACCEPT"]

/-- `processIptables`: the eleven `insertRuleIfNotExists` calls, in the order
of the source. -/
def processIptables (f : IptFaults) (bridge : Bridge) (s : State) : State :=
  let s := insertRuleIfNotExists f "FORWARD" IPModPREP ( _forwardRuleOut bridge) s
  let s := insertRuleIfNotExists f "FORWARD" IPModPREP ( _forwardRuleIn bridge) s
  let s := insertRuleIfNotExists f "FORWARD" IPModPREP ( _forwardRuleIO bridge) s
  let s := insertRuleIfNotExists f "FORWARD" IPModAPP ( _forwardRejectICMPUnreachableIn bridge) s
  let s := insertRuleIfNotExists f "FORWARD" IPModAPP ( _forwardRejectICMPUnreachableOut bridge) s
  let s := insertRuleIfNotExists f "INPUT" IPModPREP ( _dhcpIn bridge) s
  let s := insertRuleIfNotExists f "INPUT" IPModPREP ( _dnsIn bridge "tcp") s
  let s := insertRuleIfNotExists f "INPUT" IPModPREP ( _dnsIn bridge "udp") s
  let s := insertRuleIfNotExists f "OUTPUT" IPModPREP ( _dhcpOut bridge) s
  let s := insertRuleIfNotExists f "OUTPUT" IPModPREP ( _dnsOut bridge "tcp") s
  let s := insertRuleIfNotExists f "OUTPUT" IPModPREP ( _dnsOut bridge "udp") s
  s

/-- The loop of `cleanUp` over the registry entries. An empty entry makes
`cr[0]` panic (`none`); a failing existence query logs and returns from
`cleanUp`, leaving the rest of the registry unvisited; the result of `Delete`
is not looked at. -/
def cleanUpLoop (f : IptFaults) : List (List String) → Netfilter → Option Netfilter
  | [], nf => some nf
  | [] :: _, _ => none
  | (chain :: rules) :: rest, nf =>
    if f.existsErr chain rules then some nf
    else if iptExists nf table chain rules then
      cleanUpLoop f rest
        (if f.deleteErr chain rules then nf else iptDelete nf table chain rules)
    else cleanUpLoop f rest nf

/-- `cleanUp`. -/
def cleanUp (f : IptFaults) (s : State) : Option State :=
  if f.newErr then some s
  else (cleanUpLoop f s.ruleRegistry s.filter).map (fun nf => { s with filter := nf })

/-- A registry entry `chain :: tokens` is live: its tokens are a rule of its
chain in the filter table. -/
def entryLive (nf : Netfilter) (cr : List String) : Prop :=
  match cr with
  | [] => False
  | chain :: rules => rules ∈ nf table chain

instance (nf : Netfilter) (cr : List String) : Decidable (entryLive nf cr) := by
  unfold entryLive
  cases cr <;> infer_instance

/-- An initial state for the examples: flag on, empty registry, no link, all
chains empty. -/
def State.empty : State :=
  State.start (fun _ => none) (fun _ _ => [])

/-- Number of occurrences of the rule of a registry entry `chain :: tokens` in
its chain of the filter table. -/
def entryCount (nf : Netfilter) (cr : List String) : Nat :=
  match cr with
  | [] => 0
  | chain :: rules => (nf table chain).count rules

/-- The registry entries `chain :: tokens ++ marker` of the eleven rules that
`processIptables` requests for a bridge, in the order of the calls. -/
def daemonEntries (bridge : Bridge) : List (List String) :=
  [ "FORWARD" :: ( _forwardRuleOut bridge ++ marker),
    "FORWARD" :: ( _forwardRuleIn bridge ++ marker),
    "FORWARD" :: ( _forwardRuleIO bridge ++ marker),
    "FORWARD" :: ( _forwardRejectICMPUnreachableIn bridge ++ marker),
    "FORWARD" :: ( _forwardRejectICMPUnreachableOut bridge ++ marker),
    "INPUT" :: ( _dhcpIn bridge ++ marker),
    "INPUT" :: ( _dnsIn bridge "tcp" ++ marker),
    "INPUT" :: ( _dnsIn bridge "udp" ++ marker),
    "OUTPUT" :: ( _dhcpOut bridge ++ marker),
    "OUTPUT" :: ( _dnsOut bridge "tcp" ++ marker),
    "OUTPUT" :: ( _dnsOut bridge "udp" ++ marker) ]

/-! ## Strings -/

/-- `strings.Split(s, sep)` for a one-character separator, on character lists:
the pieces between the separators; the empty string gives one empty piece. -/
def splitChars (sep : Char) : List Char → List (List Char)
  | [] => [[]]
  | ch :: cs =>
    if ch = sep then [] :: splitChars sep cs
    else
      match splitChars sep cs with
      | [] => [[ch]]
      | w :: ws => (ch :: w) :: ws

/-- `strings.Split(s, sep)` for a one-character separator. -/
def Split (s : String) (sep : Char) : List String :=
  (splitChars sep s.data).map String.mk

/-- `unicode.IsSpace`. -/
def isSpace (ch : Char) : Bool :=
  ch.toNat = 9 || ch.toNat = 10 || ch.toNat = 11 || ch.toNat = 12 || ch.toNat = 13 ||
  ch.toNat = 32 || ch.toNat = 0x85 || ch.toNat = 0xA0 || ch.toNat = 0x1680 ||
  (0x2000 ≤ ch.toNat && ch.toNat ≤ 0x200a) || ch.toNat = 0x2028 || ch.toNat = 0x2029 ||
  ch.toNat = 0x202f || ch.toNat = 0x205f || ch.toNat = 0x3000

/-- `strings.TrimSpace`. -/
def TrimSpace (s : String) : String :=
  String.mk (((s.data.dropWhile isSpace).reverse.dropWhile isSpace).reverse)

/-- Value of a non-empty string of decimal digits. -/
def parseDigits (cs : List Char) : Option Nat :=
  if cs ≠ [] ∧ cs.all Char.isDigit then
    some (cs.foldl (fun n ch => 10 * n + (ch.toNat - 48)) 0)
  else none

/-! ## The netlink surface -/

/-- One field of a dotted-decimal IPv4 address: one to three digits, no leading
zero before another digit, value at most 255. -/
def parseOctet (cs : List Char) : Option Nat :=
  match parseDigits cs with
  | none => none
  | some n =>
    if cs.length ≤ 3 ∧ n ≤ 255 ∧ ¬ (cs.head? = some '0' ∧ 1 < cs.length) then some n
    else none

/-- `net.ParseCIDR` on an IPv4 CIDR `a.b.c.d/n`: the address and the prefix
length (`n` at most 32). IPv6 notation is outside this model and is refused. -/
def ParseCIDR (s : String) : Option ((Nat × Nat × Nat × Nat) × Nat) :=
  match splitChars '/' s.data with
  | [addr, mask] =>
    match (splitChars '.' addr).map parseOctet, parseDigits mask with
    | [some a, some b, some c, some d], some n =>
      if n ≤ 32 then some ((a, b, c, d), n) else none
    | _, _ => none
  | _ => none

/-- `netlink.ParseAddr`: an optional label follows the CIDR after a blank. A
string that does not parse gives `none` (the Go function returns a nil
pointer and an error). -/
def ParseAddr (s : String) : Option Addr :=
  let parts := Split s ' '
  let cidr := if 1 < parts.length then parts.headD "" else s
  let label := if 1 < parts.length then (parts.drop 1).headD "" else ""
  match ParseCIDR cidr with
  | none => none
  | some (ip, n) => some { ip := ip, ones := n, label := label }

/-- `IP.String()` of an IPv4 address. -/
def Addr.ipString (a : Addr) : String :=
  toString a.ip.1 ++ "." ++ toString a.ip.2.1 ++ "." ++ toString a.ip.2.2.1 ++ "." ++
    toString a.ip.2.2.2

/-- `fmt.Sprintf("%v/%v", v.IP.String(), size)` with `size, _ := v.Mask.Size()`. -/
def Addr.render (a : Addr) : String :=
  a.ipString ++ "/" ++ toString a.ones

/-- `Addr.String()`: `ip/prefixlen label`, blanks trimmed. -/
def Addr.String (a : Addr) : String :=
  TrimSpace (a.render ++ " " ++ a.label)

/-- Which netlink calls return an error (`true`: the call fails). -/
structure NlFaults where
  linkByNameErr : Bool
  linkAddErr : Bool
  addrListErr : Bool
  addrAddErr : Addr → Bool
  addrDelErr : Addr → Bool

/-- Every netlink call succeeds. -/
def NlFaults.none : NlFaults :=
  { linkByNameErr := false
    linkAddErr := false
    addrListErr := false
    addrAddErr := fun _ => false
    addrDelErr := fun _ => false }

/-- Error of `netlink.LinkByName`: `LinkNotFoundError` or anything else. -/
inductive LinkErr where
  | notFound
  | other

/-- Replace the address list of one link. -/
def setLink (links : String → Option (List Addr)) (name : String) (l : List Addr) :
    String → Option (List Addr) :=
  fun n => if n = name then some l else links n

/-- `netlink.LinkByName(name)`; the link handle is the name. -/
def LinkByName (f : NlFaults) (s : State) (name : String) : Except LinkErr String :=
  if f.linkByNameErr then .error .other
  else
    match s.links name with
    | none => .error .notFound
    | some _ => .ok name

/-- `netlink.AddrList(lnk, ipv4)`. -/
def AddrList (f : NlFaults) (s : State) (lnk : String) : Option (List Addr) :=
  if f.addrListErr then none else s.links lnk

/-- `netlink.AddrAdd(lnk, addr)`: the address is bound after the ones already
there; binding an address that is already bound is refused. -/
def AddrAdd (f : NlFaults) (lnk : String) (a : Addr) (s : State) : State :=
  if f.addrAddErr a then s
  else
    match s.links lnk with
    | none => s
    | some l => if a ∈ l then s else { s with links := setLink s.links lnk (l ++ [a]) }

/-- `netlink.AddrDel(lnk, addr)`. -/
def AddrDel (f : NlFaults) (lnk : String) (a : Addr) (s : State) : State :=
  if f.addrDelErr a then s
  else
    match s.links lnk with
    | none => s
    | some l => { s with links := setLink s.links lnk (l.erase a) }

/-- Modelled from the spec: `network.CreateNetBridge` is not among the
sources; it creates the interface named by the bridge descriptor (here
without any address). -/
def CreateNetBridge (f : NlFaults) (bridge : Bridge) (s : State) : State :=
  if f.linkAddErr then s
  else
    match s.links bridge.Name with
    | none => { s with links := setLink s.links bridge.Name [] }
    | some _ => s

/-! ## Bridge state manager -/

/-- `processExistence`. -/
def processExistence (f : NlFaults) (bridge : Bridge) (s : State) : State :=
  match LinkByName f s bridge.Name with
  | .error .notFound => CreateNetBridge f bridge s
  | .error .other => s
  | .ok _ => s

/-- `processAddr`. The result `none` is the nil-pointer panic of
`newAddr.String()` when `ParseAddr` failed and the interface has addresses. -/
def processAddr (f : NlFaults) (bridge : Bridge) (s : State) : Option State :=
  match LinkByName f s bridge.Name with
  | .error _ => some s
  | .ok lnk =>
    match AddrList f s lnk with
    | none => some s
    | some addrs =>
      let newAddr := ParseAddr bridge.Inet
      if addrs.length = 0 then
        match newAddr with
        | none => some s
        | some a => some (AddrAdd f lnk a s)
      else
        let addrsStrs := addrs.map Addr.render
        match newAddr with
        | none => none
        | some a =>
          if !Contains addrsStrs a.String then
            let s := addrs.foldl (fun s v => AddrDel f lnk v s) s
            some (AddrAdd f lnk a s)
          else some s

/-- Example registry state for the teardown: two registered rules, both live. -/
def teardownExample : State :=
  { isOn := false
    ruleRegistry := [["FORWARD", "-j", "ACCEPT"], ["INPUT", "-j", "DROP"]]
    links := fun _ => none
    filter := fun t c =>
      if t = "filter" ∧ c = "FORWARD" then [["-j", "ACCEPT"]]
      else if t = "filter" ∧ c = "INPUT" then [["-j", "DROP"]]
      else [] }

/-- Example faults for the teardown: only the existence query of the rule
`-j ACCEPT` of `FORWARD` fails. -/
def teardownFaults : IptFaults :=
  { newErr := false
    existsErr := fun c r => decide (c = "FORWARD" ∧ r = ["-j", "ACCEPT"])
    appendErr := fun _ _ => false
    insertErr := fun _ _ => false
    deleteErr := fun _ _ => false }

/-- Example bridge descriptor of the specification. -/
def mkbr0 : Bridge :=
  { Name := "mkbr0", Host := "eth0", Inet := "10.20.0.1/24" }

/-- Example state: the interface `mkbr0` exists and carries `10.0.0.5/24`. -/
def driftExample : State :=
  { isOn := true
    ruleRegistry := []
    links := fun n =>
      if n = "mkbr0" then some [{ ip := (10, 0, 0, 5), ones := 24, label := "" }] else none
    filter := fun _ _ => [] }

/-! ## Subnet derivation and the DHCP/DNS service -/

/-- `bridgeSubNet`: the first three dot-separated fields of the part of `inet`
before the first slash, each followed by a dot, with the last byte cut off.
Fewer than three fields make `ipSplitted[i]` panic (`none`). -/
def bridgeSubNet (bridge : Bridge) : Option String :=
  let ip := (Split bridge.Inet '/').headD ""
  let ipSplitted := Split ip '.'
  if 3 ≤ ipSplitted.length then
    let res := (ipSplitted.take 3).foldl (fun builder x => builder ++ x ++ ".") ""
    some (String.mk res.data.dropLast)
  else none

/-- The part of `common.OverallConfig` that `startDnsmasq` reads. -/
structure OverallConfig where
  TmpDir : String

/-- `fmt.Sprintf("%v.2,%v.254,infinite", subnet, subnet)`. -/
def dhcpRange (subnet : String) : String :=
  subnet ++ ".2," ++ subnet ++ ".254,infinite"

/-- `startDnsmasq`: the argument vector of the `dnsmasq` command it runs;
`pathJoin` stands for the library function `path.Join`. -/
def startDnsmasq (pathJoin : String → String → String) (bridge : Bridge)
    (config : OverallConfig) : Option (List String) :=
  match bridgeSubNet bridge with
  | none => none
  | some subnet =>
    some
      [ "dnsmasq",
        "--keep-in-foreground",
        "--strict-order",
        "--bind-interfaces",
        "--pid-file",
        "--domain=mediumkube",
        "--local=/mediumkube/",
        "--except-interface=lo",
        "--interface", bridge.Name,
        "--listen-address=" ++ (Split bridge.Inet '/').headD "",
        "--dhcp-no-override",
        "--dhcp-authoritative",
        "--dhcp-leasefile=" ++ pathJoin config.TmpDir "dnsmasq.lease",
        "--dhcp-hostsfile=" ++ pathJoin config.TmpDir "dnsmasq.hosts",
        "--dhcp-range=" ++ dhcpRange subnet ]

/-! ## Reconciliation loop and lifecycle -/

/-- What one reconciliation tick works with: the bridge descriptor of the
configuration and the failures of the kernel calls during the tick. -/
structure Env where
  nl : NlFaults
  ipt : IptFaults
  bridge : Bridge

/-- `stopDaemon` (the lock around the assignment is in `stepSignal`). -/
def stopDaemon (s : State) : State :=
  { s with isOn := false }

/-- One reconciliation tick: `processExistence`, `processAddr`,
`processIptables` (after the sleep). `none` is the panic of `processAddr`. -/
def tick (env : Env) (s : State) : Option State :=
  match processAddr env.nl env.bridge (processExistence env.nl env.bridge s) with
  | none => none
  | some s1 => some (processIptables env.ipt env.bridge s1)

/-- Body of one loop iteration between `dmux.Lock()` and `dmux.Unlock()`:
`if on { ... }`. -/
def iteration (env : Env) (s : State) : Option State :=
  if s.isOn then tick env s else some s

/-- Outcome of running the reconciliation loop for a bounded number of
iterations. -/
inductive LoopResult where
  | exited (s : State)
  | panicked
  | running (s : State)

/-- The loop `for on { dmux.Lock(); if on { ... }; dmux.Unlock() }` run alone
for at most `fuel` iterations. -/
def reconcileLoop (env : Env) : Nat → State → LoopResult
  | 0, s => if s.isOn then .running s else .exited s
  | fuel + 1, s =>
    if s.isOn then
      match iteration env s with
      | none => .panicked
      | some s1 => reconcileLoop env fuel s1
    else .exited s

/-- Steps of the daemon seen as a state machine over the run flag, the
registry and the kernel state. -/
inductive Action where
  | stop
  | iterate (env : Env)
  | teardown (f : IptFaults)

/-- An action is a loop iteration. -/
def Action.isIterate : Action → Bool
  | .iterate _ => true
  | _ => false

/-- Effect of one action; `none` is a panic. -/
def step (a : Action) (s : State) : Option State :=
  match a with
  | .stop => some (stopDaemon s)
  | .iterate env => iteration env s
  | .teardown f => cleanUp f s

/-- Effect of a sequence of actions. -/
def run : List Action → State → Option State
  | [], s => some s
  | a :: rest, s =>
    match step a s with
    | none => none
    | some s1 => run rest s1

/-- Program points of the reconciliation loop of `main`. -/
inductive LoopPc where
  | loopTest
  | lock
  | locked
  | ticking
  | unlock
  | exited
deriving DecidableEq

/-- Program points of the signal-handling goroutine of `main`. -/
inductive SigPc where
  | waiting
  | stopLock
  | stopSet
  | stopUnlock
  | cleaning
  | done
deriving DecidableEq

/-- The two goroutines that share `on`, `dmux` and `ruleRegistry`. -/
inductive Thread where
  | loop
  | signal
deriving DecidableEq

/-- The daemon process: shared state, whether `dmux` is held, the program
point of each goroutine, and whether a panic ended the process. -/
structure Proc where
  st : State
  mutex : Bool
  loop : LoopPc
  sig : SigPc
  crashed : Bool

/-- Process start: lock free, loop about to test `on`, no signal yet. -/
def Proc.init (s : State) : Proc :=
  { st := s, mutex := false, loop := .loopTest, sig := .waiting, crashed := false }

/-- One step of the reconciliation loop; `none` when it is blocked on
`dmux.Lock()` or has left the loop. A tick is in progress from the step that
enters `ticking` to the step that leaves it. -/
def stepLoop (env : Env) (p : Proc) : Option Proc :=
  match p.loop with
  | .loopTest => some { p with loop := if p.st.isOn then .lock else .exited }
  | .lock => if p.mutex then none else some { p with mutex := true, loop := .locked }
  | .locked => some { p with loop := if p.st.isOn then .ticking else .unlock }
  | .ticking =>
    match tick env p.st with
    | none => some { p with crashed := true }
    | some st => some { p with st := st, loop := .unlock }
  | .unlock => some { p with mutex := false, loop := .loopTest }
  | .exited => none

/-- One step of the signal goroutine: receive the signal, `stopDaemon` (lock,
`on = false`, unlock), then `cleanUp`, which is in progress from the step that
enters `cleaning` to the step that leaves it. -/
def stepSignal (env : Env) (p : Proc) : Option Proc :=
  match p.sig with
  | .waiting => some { p with sig := .stopLock }
  | .stopLock => if p.mutex then none else some { p with mutex := true, sig := .stopSet }
  | .stopSet => some { p with st := stopDaemon p.st, sig := .stopUnlock }
  | .stopUnlock => some { p with mutex := false, sig := .cleaning }
  | .cleaning =>
    match cleanUp env.ipt p.st with
    | none => some { p with crashed := true }
    | some st => some { p with st := st, sig := .done }
  | .done => none

/-- One step of the chosen goroutine; nothing moves after a panic. -/
def stepThread (env : Env) (t : Thread) (p : Proc) : Option Proc :=
  if p.crashed then none
  else
    match t with
    | .loop => stepLoop env p
    | .signal => stepSignal env p

/-- Run an interleaving: the schedule names the goroutine that moves next and
the environment it meets; a goroutine that cannot move leaves the process as
it is. -/
def exec : List (Env × Thread) → Proc → Proc
  | [], p => p
  | (env, t) :: rest, p => exec rest ((stepThread env t p).getD p)

/-- Example environment: bridge `mkbr0`, every kernel call succeeding. -/
def okEnv : Env :=
  { nl := NlFaults.none, ipt := IptFaults.none, bridge := mkbr0 }

/-! ## Invariants -/

/-- Invariant of the rule manager for a set `D` of entries: the registry holds
only entries of `D`, and every entry of `D` is live at most once. -/
def RegistryInv (D : List (List String)) (s : State) : Prop :=
  (∀ e ∈ s.ruleRegistry, e ∈ D) ∧ (∀ e ∈ D, entryCount s.filter e ≤ 1)

/-- Invariant of the interleaved process: the lock is held exactly by the
goroutine that is inside its critical section, a tick runs only with the flag
on, and the flag is off once `stopDaemon` has set it so. -/
def ProcInv (p : Proc) : Prop :=
  ((p.loop = .locked ∨ p.loop = .ticking ∨ p.loop = .unlock) →
    p.mutex = true ∧ p.sig ≠ .stopSet ∧ p.sig ≠ .stopUnlock) ∧
  ((p.sig = .stopSet ∨ p.sig = .stopUnlock) → p.mutex = true) ∧
  ((p.sig = .stopUnlock ∨ p.sig = .cleaning ∨ p.sig = .done) → p.st.isOn = false) ∧
  (p.loop = .ticking → p.st.isOn = true)

/-! ## Properties -/

theorem containsT_iff (slice : List (List String)) (target : List String) :
    ContainsT slice target = true ↔ target ∈ slice := by
  unfold ContainsT
  simp only [List.any_eq_true, decide_eq_true_eq]
  constructor
  · rintro ⟨v, hv, rfl⟩
    exact hv
  · intro h
    exact ⟨target, h, rfl⟩

theorem registry_insertRule (f : IptFaults) (c : String) (m : IPMode)
    (T : List String) (s : State) :
    (insertRuleIfNotExists f c m T s).ruleRegistry =
      if ContainsT s.ruleRegistry (T ++ marker) then s.ruleRegistry
      else s.ruleRegistry ++ [c :: (T ++ marker)] := by
  unfold insertRuleIfNotExists
  by_cases h : ContainsT s.ruleRegistry (T ++ marker) = true
  · simp only [h]
    simp only [Bool.not_true, Bool.false_eq_true, if_false, if_true]
    split_ifs <;> rfl
  · simp only [Bool.not_eq_true] at h
    simp only [h]
    simp only [Bool.not_false, if_true, Bool.false_eq_true, if_false]
    split_ifs <;> rfl

/-- C1 (as the code behaves): starting from an empty registry, two calls of
`insertRuleIfNotExists` with the same chain and tokens leave TWO registry
entries, both `chain :: tokens ++ marker`, whatever the modes and whatever the
filter-table calls return: the lookup compares `tokens ++ marker` with entries
that carry the chain in front, so it never finds the rule. -/
theorem insertRule_twice_registers_twice (f1 f2 : IptFaults) (c : String)
    (m1 m2 : IPMode) (T : List String) (s : State) :
    (insertRuleIfNotExists f2 c m2 T
      (insertRuleIfNotExists f1 c m1 T { s with ruleRegistry := [] })).ruleRegistry
      = [c :: (T ++ marker), c :: (T ++ marker)] := by
  rw [registry_insertRule, registry_insertRule]
  have h1 : ContainsT ([] : List (List String)) (T ++ marker) = false := rfl
  have h2 : ContainsT [c :: (T ++ marker)] (T ++ marker) = false := by
    rw [← Bool.not_eq_true, containsT_iff]
    simp
  simp [h1, h2]

theorem filter_insertRule_ok (c : String) (m : IPMode) (T : List String) (s : State) :
    (insertRuleIfNotExists IptFaults.none c m T s).filter =
      if T ++ marker ∈ s.filter table c then s.filter
      else if m = IPModAPP then iptAppend s.filter table c (T ++ marker)
      else if m = IPModPREP then iptInsert s.filter table c 1 (T ++ marker)
      else s.filter := by
  unfold insertRuleIfNotExists iptExists
  simp only [IptFaults.none, Bool.false_eq_true, if_false]
  have hne : ¬ (IPModPREP = IPModAPP) := by decide
  by_cases hreg : ContainsT s.ruleRegistry (T ++ marker) = true <;>
    by_cases hin : T ++ marker ∈ s.filter table c <;>
    by_cases h1 : m = IPModAPP <;>
    by_cases h2 : m = IPModPREP <;>
    simp [hreg, hin, h1, h2, hne]

theorem setChain_same (nf : Netfilter) (t c : String) (rs : List Rule) :
    setChain nf t c rs t c = rs := by
  simp [setChain]

theorem setChain_other (nf : Netfilter) (t c t1 c1 : String) (rs : List Rule)
    (h : ¬ (t1 = t ∧ c1 = c)) : setChain nf t c rs t1 c1 = nf t1 c1 := by
  simp [setChain, h]

theorem iptInsert_one (nf : Netfilter) (t c : String) (r : Rule) :
    iptInsert nf t c 1 r = setChain nf t c (r :: nf t c) := by
  simp [iptInsert]

/-- C2: with the filter-table calls succeeding and the rule `T ++ marker` not
yet in chain `c`, `insertRuleIfNotExists c m1 T` followed by
`insertRuleIfNotExists c m2 T` (first mode append or prepend, second mode
any, so append or prepend in particular) leaves exactly one occurrence of the
rule in chain `c`, and the second call does not change the filter table. -/
theorem insertRule_idempotent_live (c : String) (m1 m2 : IPMode) (T : List String)
    (s : State)
    (hm1 : m1 = IPModAPP ∨ m1 = IPModPREP)
    (hfresh : T ++ marker ∉ s.filter table c) :
    ((insertRuleIfNotExists IptFaults.none c m2 T
        (insertRuleIfNotExists IptFaults.none c m1 T s)).filter table c).count
        (T ++ marker) = 1 ∧
    (insertRuleIfNotExists IptFaults.none c m2 T
        (insertRuleIfNotExists IptFaults.none c m1 T s)).filter =
      (insertRuleIfNotExists IptFaults.none c m1 T s).filter := by
  have hcount : List.count (T ++ marker) (s.filter table c) = 0 :=
    List.count_eq_zero.mpr hfresh
  have hmem : T ++ marker ∈
      (insertRuleIfNotExists IptFaults.none c m1 T s).filter table c := by
    rw [filter_insertRule_ok, if_neg hfresh]
    rcases hm1 with h | h
    · rw [if_pos h, iptAppend, setChain_same]
      simp
    · have hne : ¬ (m1 = IPModAPP) := by rw [h]; decide
      rw [if_neg hne, if_pos h, iptInsert_one, setChain_same]
      simp
  have hsame : (insertRuleIfNotExists IptFaults.none c m2 T
        (insertRuleIfNotExists IptFaults.none c m1 T s)).filter =
      (insertRuleIfNotExists IptFaults.none c m1 T s).filter := by
    rw [filter_insertRule_ok c m2, if_pos hmem]
  refine ⟨?_, hsame⟩
  rw [hsame, filter_insertRule_ok, if_neg hfresh]
  rcases hm1 with h | h
  · rw [if_pos h, iptAppend, setChain_same, List.count_append, hcount]
    simp
  · have hne : ¬ (m1 = IPModAPP) := by rw [h]; decide
    rw [if_neg hne, if_pos h, iptInsert_one, setChain_same, List.count_cons_self, hcount]

/-- Witness of C2: chain `FORWARD`, first prepend then append, tokens
`-j ACCEPT`, over the empty filter table. -/
theorem insertRule_idempotent_live_witness :
    (IPModPREP = IPModAPP ∨ IPModPREP = IPModPREP) ∧
    ["-j", "ACCEPT"] ++ marker ∉ State.empty.filter table "FORWARD" ∧
    ((insertRuleIfNotExists IptFaults.none "FORWARD" IPModAPP ["-j", "ACCEPT"]
        (insertRuleIfNotExists IptFaults.none "FORWARD" IPModPREP ["-j", "ACCEPT"]
          State.empty)).filter table "FORWARD").count
        (["-j", "ACCEPT"] ++ marker) = 1 ∧
    (insertRuleIfNotExists IptFaults.none "FORWARD" IPModAPP ["-j", "ACCEPT"]
        (insertRuleIfNotExists IptFaults.none "FORWARD" IPModPREP ["-j", "ACCEPT"]
          State.empty)).filter =
      (insertRuleIfNotExists IptFaults.none "FORWARD" IPModPREP ["-j", "ACCEPT"]
        State.empty).filter :=
  ⟨Or.inr rfl, by simp [State.empty, State.start],
    insertRule_idempotent_live "FORWARD" IPModPREP IPModAPP ["-j", "ACCEPT"] State.empty
      (Or.inr rfl) (by simp [State.empty, State.start])⟩

/-- C6: one pass of `processIptables` over an empty filter table, the calls
succeeding, leaves in `FORWARD` the intra-bridge accept, the from-subnet
accept, the established/related accept, the inbound reject and the outbound
reject, in this order; in `INPUT` DNS udp, DNS tcp, DHCP; in `OUTPUT` DNS udp,
DNS tcp, DHCP; every rule once and ending with the marker comment; every other
chain (and every chain of another table) stays empty. -/
theorem processIptables_fixed_rule_set (bridge : Bridge) (s : State) :
    (processIptables IptFaults.none bridge { s with filter := fun _ _ => [] }).filter
        "filter" "FORWARD" =
      [ ["-i", bridge.Name, "-o", bridge.Name, "-j", "ACCEPT",
          "-m", "comment", "--comment", "Auto generated by mediumkubed"],
        ["-s", bridge.Inet, "-i", bridge.Name, "-j", "ACCEPT",
          "-m", "comment", "--comment", "Auto generated by mediumkubed"],
        ["-d", bridge.Inet, "-o", bridge.Name, "-m", "conntrack",
          "--ctstate", "RELATED,ESTABLISHED", "-j", "ACCEPT",
          "-m", "comment", "--comment", "Auto generated by mediumkubed"],
        ["-i", bridge.Name, "-j", "REJECT", "--reject-with", "icmp-port-unreachable",
          "-m", "comment", "--comment", "Auto generated by mediumkubed"],
        ["-o", bridge.Name, "-j", "REJECT", "--reject-with", "icmp-port-unreachable",
          "-m", "comment", "--comment", "Auto generated by mediumkubed"] ] ∧
    (processIptables IptFaults.none bridge { s with filter := fun _ _ => [] }).filter
        "filter" "INPUT" =
      [ ["-i", bridge.Name, "-p", "udp", "-m", "udp", "--dport", "53", "-j", "ACCEPT",
          "-m", "comment", "--comment", "Auto generated by mediumkubed"],
        ["-i", bridge.Name, "-p", "tcp", "-m", "tcp", "--dport", "53", "-j", "ACCEPT",
          "-m", "comment", "--comment", "Auto generated by mediumkubed"],
        ["-i", bridge.Name, "-p", "udp", "-m", "udp", "--dport", "67", "-j", "ACCEPT",
          "-m", "comment", "--comment", "Auto generated by mediumkubed"] ] ∧
    (processIptables IptFaults.none bridge { s with filter := fun _ _ => [] }).filter
        "filter" "OUTPUT" =
      [ ["-o", bridge.Name, "-p", "udp", "-m", "udp", "--dport", "53", "-j", "ACCEPT",
          "-m", "comment", "--comment", "Auto generated by mediumkubed"],
        ["-o", bridge.Name, "-p", "tcp", "-m", "tcp", "--dport", "53", "-j", "ACCEPT",
          "-m", "comment", "--comment", "Auto generated by mediumkubed"],
        ["-o", bridge.Name, "-p", "udp", "-m", "udp", "--sport", "67", "-j", "ACCEPT",
          "-m", "comment", "--comment", "Auto generated by mediumkubed"] ] ∧
    ∀ t c : String, ¬ (t = "filter" ∧ (c = "FORWARD" ∨ c = "INPUT" ∨ c = "OUTPUT")) →
      (processIptables IptFaults.none bridge { s with filter := fun _ _ => [] }).filter
        t c = [] := by
  have hne : ¬ (IPModPREP = IPModAPP) := by decide
  refine ⟨?_, ?_, ?_, ?_⟩
  · simp [processIptables, filter_insertRule_ok, iptAppend, iptInsert_one, setChain,
      marker, _forwardRuleOut, _forwardRuleIn, _forwardRuleIO,
      _forwardRejectICMPUnreachableIn, _forwardRejectICMPUnreachableOut,
      _dhcpIn, _dhcpOut, _dnsIn, _dnsOut, table, hne]
  · simp [processIptables, filter_insertRule_ok, iptAppend, iptInsert_one, setChain,
      marker, _forwardRuleOut, _forwardRuleIn, _forwardRuleIO,
      _forwardRejectICMPUnreachableIn, _forwardRejectICMPUnreachableOut,
      _dhcpIn, _dhcpOut, _dnsIn, _dnsOut, table, hne]
  · simp [processIptables, filter_insertRule_ok, iptAppend, iptInsert_one, setChain,
      marker, _forwardRuleOut, _forwardRuleIn, _forwardRuleIO,
      _forwardRejectICMPUnreachableIn, _forwardRejectICMPUnreachableOut,
      _dhcpIn, _dhcpOut, _dnsIn, _dnsOut, table, hne]
  · intro t c h
    have h1 : ¬ (t = "filter" ∧ c = "FORWARD") := fun hh => h ⟨hh.1, Or.inl hh.2⟩
    have h2 : ¬ (t = "filter" ∧ c = "INPUT") := fun hh => h ⟨hh.1, Or.inr (Or.inl hh.2)⟩
    have h3 : ¬ (t = "filter" ∧ c = "OUTPUT") := fun hh => h ⟨hh.1, Or.inr (Or.inr hh.2)⟩
    simp [processIptables, filter_insertRule_ok, iptAppend, iptInsert_one, setChain,
      marker, _forwardRuleOut, _forwardRuleIn, _forwardRuleIO,
      _forwardRejectICMPUnreachableIn, _forwardRejectICMPUnreachableOut,
      _dhcpIn, _dhcpOut, _dnsIn, _dnsOut, table, hne, h1, h2, h3]

/-! ### Teardown -/

theorem entryLive_iff_count (nf : Netfilter) (cr : List String) :
    entryLive nf cr ↔ 0 < entryCount nf cr := by
  cases cr with
  | nil => simp [entryLive, entryCount]
  | cons c r => simp [entryLive, entryCount, List.count_pos_iff]

theorem count_iptDelete_le (nf : Netfilter) (t c t1 c1 : String) (r r1 : Rule) :
    ((iptDelete nf t c r) t1 c1).count r1 ≤ (nf t1 c1).count r1 := by
  unfold iptDelete setChain
  split_ifs with h
  · obtain ⟨rfl, rfl⟩ := h
    exact (List.erase_sublist r (nf t1 c1)).count_le r1
  · exact le_rfl

theorem count_iptDelete_self (nf : Netfilter) (t c : String) (r : Rule) :
    ((iptDelete nf t c r) t c).count r = (nf t c).count r - 1 := by
  unfold iptDelete
  rw [setChain_same, List.count_erase_self]

/-- The filter table only loses rules in the teardown loop, the loop ends
normally when no registry entry is empty, and every entry that was live at
most once is not live afterwards. -/
theorem cleanUpLoop_ok (R : List (List String)) :
    ∀ nf : Netfilter, (∀ e ∈ R, e ≠ []) →
      ∃ nf1, cleanUpLoop IptFaults.none R nf = some nf1 ∧
        (∀ t c r, (nf1 t c).count r ≤ (nf t c).count r) ∧
        (∀ e ∈ R, entryCount nf e ≤ 1 → ¬ entryLive nf1 e) := by
  induction R with
  | nil =>
    intro nf _
    exact ⟨nf, rfl, fun _ _ _ => le_rfl, fun e he => absurd he (List.not_mem_nil e)⟩
  | cons cr rest ih =>
    intro nf hne
    have hrest : ∀ e ∈ rest, e ≠ [] := fun e he => hne e (List.mem_cons_of_mem _ he)
    cases cr with
    | nil => exact absurd rfl (hne [] (List.mem_cons_self _ _))
    | cons c r =>
      by_cases hlive : r ∈ nf table c
      · obtain ⟨nf1, hrun, hle, hgone⟩ := ih (iptDelete nf table c r) hrest
        refine ⟨nf1, ?_, ?_, ?_⟩
        · rw [← hrun]
          simp [cleanUpLoop, IptFaults.none, iptExists, hlive]
        · intro t1 c1 r1
          exact le_trans (hle t1 c1 r1) (count_iptDelete_le nf table c t1 c1 r r1)
        · intro e he hcount
          rcases List.mem_cons.mp he with rfl | he
          · rw [entryLive_iff_count]
            have h1 := hle table c r
            rw [count_iptDelete_self] at h1
            simp only [entryCount] at hcount ⊢
            omega
          · apply hgone e he
            cases e with
            | nil => simp [entryCount]
            | cons c1 r1 =>
              simp only [entryCount] at hcount ⊢
              exact le_trans (count_iptDelete_le nf table c table c1 r r1) hcount
      · obtain ⟨nf1, hrun, hle, hgone⟩ := ih nf hrest
        refine ⟨nf1, ?_, hle, ?_⟩
        · rw [← hrun]
          simp [cleanUpLoop, IptFaults.none, iptExists, hlive]
        · intro e he hcount
          rcases List.mem_cons.mp he with rfl | he
          · rw [entryLive_iff_count]
            have h1 := hle table c r
            have h2 : (nf table c).count r = 0 := List.count_eq_zero.mpr hlive
            simp only [entryCount]
            omega
          · exact hgone e he hcount

/-- A successful `insertRuleIfNotExists` never takes a rule of the filter
table above one occurrence. -/
theorem count_insertRule_le_one (c : String) (m : IPMode) (T : List String) (s : State)
    (c1 : String) (r1 : Rule) (h : (s.filter table c1).count r1 ≤ 1) :
    ((insertRuleIfNotExists IptFaults.none c m T s).filter table c1).count r1 ≤ 1 := by
  rw [filter_insertRule_ok]
  by_cases hin : T ++ marker ∈ s.filter table c
  · rw [if_pos hin]; exact h
  · have h0 : (s.filter table c).count (T ++ marker) = 0 := List.count_eq_zero.mpr hin
    rw [if_neg hin]
    by_cases hc : c1 = c
    · subst hc
      by_cases hr : r1 = T ++ marker
      · subst hr
        split_ifs
        · rw [iptAppend, setChain_same, List.count_append, h0]; simp
        · rw [iptInsert_one, setChain_same, List.count_cons_self, h0]
        · exact h
      · split_ifs
        · rw [iptAppend, setChain_same, List.count_append,
            List.count_singleton, if_neg (by simpa using Ne.symm hr)]
          exact h
        · rw [iptInsert_one, setChain_same, List.count_cons_of_ne hr]
          exact h
        · exact h
    · have hne : ¬ (table = table ∧ c1 = c) := fun hh => hc hh.2
      split_ifs
      · rw [iptAppend, setChain_other _ _ _ _ _ _ hne]; exact h
      · rw [iptInsert_one, setChain_other _ _ _ _ _ _ hne]; exact h
      · exact h

theorem registryInv_insertRule (D : List (List String)) (c : String) (m : IPMode)
    (T : List String) (s : State) (hD : c :: (T ++ marker) ∈ D) (h : RegistryInv D s) :
    RegistryInv D (insertRuleIfNotExists IptFaults.none c m T s) := by
  refine ⟨?_, ?_⟩
  · intro e he
    rw [registry_insertRule] at he
    split_ifs at he
    · exact h.1 e he
    · rcases List.mem_append.mp he with he | he
      · exact h.1 e he
      · rw [List.mem_singleton.mp he]; exact hD
  · intro e he
    cases e with
    | nil => simp [entryCount]
    | cons c1 r1 =>
      have := h.2 _ he
      simp only [entryCount] at this ⊢
      exact count_insertRule_le_one c m T s c1 r1 this

theorem registryInv_processIptables (bridge : Bridge) (s : State)
    (h : RegistryInv (daemonEntries bridge) s) :
    RegistryInv (daemonEntries bridge) (processIptables IptFaults.none bridge s) := by
  unfold processIptables
  have h1 := registryInv_insertRule (daemonEntries bridge) "FORWARD" IPModPREP ( _forwardRuleOut bridge) _
    (by simp [daemonEntries]) h
  have h2 := registryInv_insertRule (daemonEntries bridge) "FORWARD" IPModPREP ( _forwardRuleIn bridge) _
    (by simp [daemonEntries]) h1
  have h3 := registryInv_insertRule (daemonEntries bridge) "FORWARD" IPModPREP ( _forwardRuleIO bridge) _
    (by simp [daemonEntries]) h2
  have h4 := registryInv_insertRule (daemonEntries bridge) "FORWARD" IPModAPP ( _forwardRejectICMPUnreachableIn bridge) _
    (by simp [daemonEntries]) h3
  have h5 := registryInv_insertRule (daemonEntries bridge) "FORWARD" IPModAPP ( _forwardRejectICMPUnreachableOut bridge) _
    (by simp [daemonEntries]) h4
  have h6 := registryInv_insertRule (daemonEntries bridge) "INPUT" IPModPREP ( _dhcpIn bridge) _
    (by simp [daemonEntries]) h5
  have h7 := registryInv_insertRule (daemonEntries bridge) "INPUT" IPModPREP ( _dnsIn bridge "tcp") _
    (by simp [daemonEntries]) h6
  have h8 := registryInv_insertRule (daemonEntries bridge) "INPUT" IPModPREP ( _dnsIn bridge "udp") _
    (by simp [daemonEntries]) h7
  have h9 := registryInv_insertRule (daemonEntries bridge) "OUTPUT" IPModPREP ( _dhcpOut bridge) _
    (by simp [daemonEntries]) h8
  have h10 := registryInv_insertRule (daemonEntries bridge) "OUTPUT" IPModPREP ( _dnsOut bridge "tcp") _
    (by simp [daemonEntries]) h9
  have h11 := registryInv_insertRule (daemonEntries bridge) "OUTPUT" IPModPREP ( _dnsOut bridge "udp") _
    (by simp [daemonEntries]) h10
  exact h11

theorem registryInv_iterate (bridge : Bridge) (N : Nat) (s : State)
    (h : RegistryInv (daemonEntries bridge) s) :
    RegistryInv (daemonEntries bridge) ((processIptables IptFaults.none bridge)^[N] s) := by
  induction N with
  | zero => exact h
  | succ n ih =>
    rw [Function.iterate_succ_apply']
    exact registryInv_processIptables bridge _ ih

theorem daemonEntries_ne_nil (bridge : Bridge) : ∀ e ∈ daemonEntries bridge, e ≠ [] := by
  intro e he hnil
  subst hnil
  simp [daemonEntries] at he

/-- C3: from an empty registry and a filter table in which none of the
daemon's rules is present, `N` passes of `processIptables` followed by one
`cleanUp`, all filter-table calls succeeding, end normally, leave the registry
as the passes built it, and no entry of the registry is live in the filter
table afterwards. -/
theorem cleanUp_after_passes_complete (bridge : Bridge) (N : Nat) (s : State)
    (hfresh : ∀ e ∈ daemonEntries bridge, ¬ entryLive s.filter e) :
    ∃ s1, cleanUp IptFaults.none
        ((processIptables IptFaults.none bridge)^[N] { s with ruleRegistry := [] }) = some s1 ∧
      s1.ruleRegistry =
        ((processIptables IptFaults.none bridge)^[N] { s with ruleRegistry := [] }).ruleRegistry ∧
      ∀ e ∈ s1.ruleRegistry, ¬ entryLive s1.filter e := by
  have h0 : RegistryInv (daemonEntries bridge) { s with ruleRegistry := [] } := by
    refine ⟨fun e he => absurd he (List.not_mem_nil e), fun e he => ?_⟩
    have := hfresh e he
    rw [entryLive_iff_count] at this
    show entryCount s.filter e ≤ 1
    omega
  have hN := registryInv_iterate bridge N _ h0
  generalize (processIptables IptFaults.none bridge)^[N] { s with ruleRegistry := [] } = sN at hN
  have hne : ∀ e ∈ sN.ruleRegistry, e ≠ [] :=
    fun e he => daemonEntries_ne_nil bridge e (hN.1 e he)
  obtain ⟨nf1, hrun, _, hgone⟩ := cleanUpLoop_ok sN.ruleRegistry sN.filter hne
  refine ⟨{ sN with filter := nf1 }, ?_, rfl, ?_⟩
  · simp [cleanUp, IptFaults.none]
    rw [← hrun]
    rfl
  · intro e he
    exact hgone e he (hN.2 e (hN.1 e he))

/-- Witness of C3: bridge `mkbr0` with `10.20.0.1/24`, two passes, from the
state with all chains empty. -/
theorem cleanUp_after_passes_complete_witness :
    (∀ e ∈ daemonEntries { Name := "mkbr0", Host := "eth0", Inet := "10.20.0.1/24" },
      ¬ entryLive State.empty.filter e) ∧
    ∃ s1, cleanUp IptFaults.none
        ((processIptables IptFaults.none
            { Name := "mkbr0", Host := "eth0", Inet := "10.20.0.1/24" })^[2]
          { State.empty with ruleRegistry := [] }) = some s1 ∧
      s1.ruleRegistry =
        ((processIptables IptFaults.none
            { Name := "mkbr0", Host := "eth0", Inet := "10.20.0.1/24" })^[2]
          { State.empty with ruleRegistry := [] }).ruleRegistry ∧
      ∀ e ∈ s1.ruleRegistry, ¬ entryLive s1.filter e :=
  ⟨by intro e _; cases e <;> simp [entryLive, State.empty, State.start],
   cleanUp_after_passes_complete _ 2 State.empty
    (by intro e _; cases e <;> simp [entryLive, State.empty, State.start])⟩

/-- C4 (as the code behaves): with the registry `FORWARD -j ACCEPT`,
`INPUT -j DROP`, both rules live, and the existence query failing for the
first entry only, `cleanUp` returns at the failed query: the second entry,
whose own query would succeed and whose rule is live, is still live
afterwards. With no failure the same teardown removes it. -/
theorem cleanUp_stops_at_failed_query :
    teardownFaults.existsErr "INPUT" ["-j", "DROP"] = false ∧
    entryLive teardownExample.filter ["INPUT", "-j", "DROP"] ∧
    (cleanUp teardownFaults teardownExample).map
        (fun s => (s.filter "filter" "FORWARD", s.filter "filter" "INPUT")) =
      some ([["-j", "ACCEPT"]], [["-j", "DROP"]]) ∧
    (cleanUp IptFaults.none teardownExample).map
        (fun s => (s.filter "filter" "FORWARD", s.filter "filter" "INPUT")) =
      some ([], []) := by
  refine ⟨by decide, by decide, by decide, by decide⟩

/-! ### Address reconciliation -/

theorem foldl_erase_self (L : List Addr) :
    L.foldl (fun acc v => acc.erase v) L = [] := by
  induction L with
  | nil => rfl
  | cons a t ih => rw [List.foldl_cons, List.erase_cons_head]; exact ih

theorem links_foldl_addrDel (n : String) (L : List Addr) :
    ∀ (s : State) (cur : List Addr), s.links n = some cur →
      (L.foldl (fun s v => AddrDel NlFaults.none n v s) s).links n =
        some (L.foldl (fun acc v => acc.erase v) cur) := by
  induction L with
  | nil => intro s cur h; exact h
  | cons a t ih =>
    intro s cur h
    rw [List.foldl_cons, List.foldl_cons]
    apply ih
    simp [AddrDel, NlFaults.none, h, setLink]

theorem links_addrAdd_ok (n : String) (a : Addr) (s : State) (l : List Addr)
    (h : s.links n = some l) (ha : a ∉ l) :
    (AddrAdd NlFaults.none n a s).links n = some (l ++ [a]) := by
  simp [AddrAdd, NlFaults.none, h, ha, setLink]

/-- C5: when the link lookup, the address list and the address add and delete
calls succeed, the descriptor's `inet` parses to `A`, and the bridge interface
carries the addresses `L` where `L` is empty or no address of `L`, rendered as
`ip/prefixlen`, equals the rendering of `A`, then `processAddr` returns and
the interface carries exactly `A`. -/
theorem processAddr_converges (bridge : Bridge) (s : State) (L : List Addr) (A : Addr)
    (hlink : s.links bridge.Name = some L)
    (hparse : ParseAddr bridge.Inet = some A)
    (hdrift : L = [] ∨ A.String ∉ L.map Addr.render) :
    ∃ s1, processAddr NlFaults.none bridge s = some s1 ∧
      s1.links bridge.Name = some [A] := by
  cases L with
  | nil =>
    refine ⟨AddrAdd NlFaults.none bridge.Name A s, ?_, ?_⟩
    · simp [processAddr, LinkByName, AddrList, NlFaults.none, hlink, hparse]
    · exact links_addrAdd_ok bridge.Name A s [] hlink (List.not_mem_nil A)
  | cons a t =>
    have hnot : A.String ∉ (a :: t).map Addr.render := by
      rcases hdrift with h | h
      · exact absurd h (List.cons_ne_nil a t)
      · exact h
    have hcontains : Contains ((a :: t).map Addr.render) A.String = false := by
      rw [← Bool.not_eq_true]
      intro hc
      apply hnot
      unfold Contains at hc
      simp only [List.any_eq_true, decide_eq_true_eq] at hc
      obtain ⟨v, hv, rfl⟩ := hc
      exact hv
    have hdel := links_foldl_addrDel bridge.Name (a :: t) s (a :: t) hlink
    rw [foldl_erase_self] at hdel
    refine ⟨AddrAdd NlFaults.none bridge.Name A
      ((a :: t).foldl (fun s v => AddrDel NlFaults.none bridge.Name v s) s), ?_, ?_⟩
    · have hc2 : Contains (a.render :: List.map Addr.render t) A.String = false := by
        simpa using hcontains
      simp [processAddr, LinkByName, AddrList, NlFaults.none, hlink, hparse, hc2]
    · exact links_addrAdd_ok bridge.Name A _ [] hdel (List.not_mem_nil A)

/-- Witness of C5: bridge `mkbr0` with `10.20.0.1/24` over an interface that
carries `10.0.0.5/24`. -/
theorem processAddr_converges_witness :
    driftExample.links mkbr0.Name =
      some [{ ip := (10, 0, 0, 5), ones := 24, label := "" }] ∧
    ParseAddr mkbr0.Inet = some { ip := (10, 20, 0, 1), ones := 24, label := "" } ∧
    ∃ s1, processAddr NlFaults.none mkbr0 driftExample = some s1 ∧
      s1.links mkbr0.Name = some [{ ip := (10, 20, 0, 1), ones := 24, label := "" }] :=
  ⟨by decide, by decide,
    processAddr_converges mkbr0 driftExample
      [{ ip := (10, 0, 0, 5), ones := 24, label := "" }]
      { ip := (10, 20, 0, 1), ones := 24, label := "" }
      (by decide) (by decide) (Or.inr (by decide))⟩

/-- C9 (as the code behaves): with a descriptor whose `inet` does not parse
and an interface that carries an address, every netlink call succeeding,
`processAddr` does not return normally: `newAddr` is nil and
`newAddr.String()` panics. With no address on the interface the same
descriptor is handled (logged) and `processAddr` returns. -/
theorem processAddr_panics_on_bad_inet :
    ParseAddr "bogus" = none ∧
    (processAddr NlFaults.none { Name := "mkbr0", Host := "eth0", Inet := "bogus" }
      driftExample).isNone = true ∧
    (processAddr NlFaults.none { Name := "mkbr0", Host := "eth0", Inet := "bogus" }
      { driftExample with links := fun _ => some [] }).isSome = true := by
  refine ⟨by decide, by decide, by decide⟩

/-! ### Subnet derivation -/

theorem splitChars_append_sep (sep : Char) (w rest : List Char) (h : sep ∉ w) :
    splitChars sep (w ++ sep :: rest) = w :: splitChars sep rest := by
  induction w with
  | nil => simp [splitChars]
  | cons ch w ih =>
    have hne : ch ≠ sep := fun e => h (by simp [e])
    have hw : sep ∉ w := fun e => h (List.mem_cons_of_mem _ e)
    simp [splitChars, hne, ih hw]

theorem splitChars_no_sep (sep : Char) (w : List Char) (h : sep ∉ w) :
    splitChars sep w = [w] := by
  induction w with
  | nil => simp [splitChars]
  | cons ch w ih =>
    have hne : ch ≠ sep := fun e => h (by simp [e])
    have hw : sep ∉ w := fun e => h (List.mem_cons_of_mem _ e)
    simp [splitChars, hne, ih hw]

theorem not_mem_of_digits (sep : Char) (hsep : sep.isDigit = false) (w : List Char)
    (h : ∀ ch ∈ w, ch.isDigit = true) : sep ∉ w := by
  intro hmem
  have := h sep hmem
  rw [hsep] at this
  exact Bool.false_ne_true this

theorem bridgeSubNet_of_fields (a b c d n : String) (bridge : Bridge)
    (ha : ∀ ch ∈ a.data, ch.isDigit = true) (hb : ∀ ch ∈ b.data, ch.isDigit = true)
    (hc : ∀ ch ∈ c.data, ch.isDigit = true) (hd : ∀ ch ∈ d.data, ch.isDigit = true)
    (h : bridge.Inet = a ++ "." ++ b ++ "." ++ c ++ "." ++ d ++ "/" ++ n) :
    bridgeSubNet bridge = some (a ++ "." ++ b ++ "." ++ c) := by
  have hdot : ('.' : Char).isDigit = false := by decide
  have hslash : ('/' : Char).isDigit = false := by decide
  have hdata : bridge.Inet.data =
      (a.data ++ '.' :: (b.data ++ '.' :: (c.data ++ '.' :: d.data))) ++ '/' :: n.data := by
    rw [h]
    simp [String.data_append]
  have hnoslash : '/' ∉ a.data ++ '.' :: (b.data ++ '.' :: (c.data ++ '.' :: d.data)) := by
    have h1 := not_mem_of_digits '/' hslash a.data ha
    have h2 := not_mem_of_digits '/' hslash b.data hb
    have h3 := not_mem_of_digits '/' hslash c.data hc
    have h4 := not_mem_of_digits '/' hslash d.data hd
    simp [h1, h2, h3, h4]
  have hsplit1 : (Split bridge.Inet '/').headD "" =
      String.mk (a.data ++ '.' :: (b.data ++ '.' :: (c.data ++ '.' :: d.data))) := by
    unfold Split
    rw [hdata, splitChars_append_sep _ _ _ hnoslash]
    rfl
  have hsplit2 : Split (String.mk
      (a.data ++ '.' :: (b.data ++ '.' :: (c.data ++ '.' :: d.data)))) '.' =
      [a, b, c, d] := by
    unfold Split
    simp only []
    rw [splitChars_append_sep _ _ _ (not_mem_of_digits '.' hdot a.data ha),
      splitChars_append_sep _ _ _ (not_mem_of_digits '.' hdot b.data hb),
      splitChars_append_sep _ _ _ (not_mem_of_digits '.' hdot c.data hc),
      splitChars_no_sep _ _ (not_mem_of_digits '.' hdot d.data hd)]
    rfl
  have hres : (List.foldl (fun builder x => builder ++ x ++ ".") ""
      (List.take 3 [a, b, c, d])).data = (a ++ "." ++ b ++ "." ++ c).data ++ ['.'] := by
    simp [String.data_append]
  unfold bridgeSubNet
  simp only [hsplit1, hsplit2, hres, List.dropLast_concat]
  simp
  exact String.ext (by simp [String.data_append])

/-- C10: for a descriptor whose `inet` is `a.b.c.d/n` with `a`, `b`, `c`, `d`
strings of decimal digits, `bridgeSubNet` returns `a.b.c` and the last
argument `startDnsmasq` builds is the DHCP range
`a.b.c.2,a.b.c.254,infinite`; for `10.20.0.1/24` the subnet is `10.20.0` and
the range `10.20.0.2,10.20.0.254,infinite`. -/
theorem bridgeSubNet_dotted_quad (a b c d n : String) (bridge : Bridge)
    (pathJoin : String → String → String) (config : OverallConfig)
    (ha : ∀ ch ∈ a.data, ch.isDigit = true) (hb : ∀ ch ∈ b.data, ch.isDigit = true)
    (hc : ∀ ch ∈ c.data, ch.isDigit = true) (hd : ∀ ch ∈ d.data, ch.isDigit = true)
    (h : bridge.Inet = a ++ "." ++ b ++ "." ++ c ++ "." ++ d ++ "/" ++ n) :
    bridgeSubNet bridge = some (a ++ "." ++ b ++ "." ++ c) ∧
    (startDnsmasq pathJoin bridge config).map List.getLast? =
      some (some ("--dhcp-range=" ++ (a ++ "." ++ b ++ "." ++ c) ++ ".2," ++
        (a ++ "." ++ b ++ "." ++ c) ++ ".254,infinite")) ∧
    bridgeSubNet mkbr0 = some "10.20.0" ∧
    (startDnsmasq pathJoin mkbr0 config).map List.getLast? =
      some (some "--dhcp-range=10.20.0.2,10.20.0.254,infinite") := by
  have hsub := bridgeSubNet_of_fields a b c d n bridge ha hb hc hd h
  have hmk : bridgeSubNet mkbr0 = some "10.20.0" := by decide
  refine ⟨hsub, ?_, hmk, ?_⟩
  · simp only [startDnsmasq, hsub, dhcpRange, Option.map_some', List.getLast?]
    simp [String.append_assoc]
  · simp only [startDnsmasq, hmk, dhcpRange, Option.map_some', List.getLast?]
    simp

/-- Witness of C10: the descriptor `mkbr0` with `inet = 10.20.0.1/24`. -/
theorem bridgeSubNet_dotted_quad_witness :
    bridgeSubNet mkbr0 = some ("10" ++ "." ++ "20" ++ "." ++ "0") ∧
    (startDnsmasq (fun dir file => dir ++ "/" ++ file) mkbr0
        { TmpDir := "/tmp" }).map List.getLast? =
      some (some ("--dhcp-range=" ++ ("10" ++ "." ++ "20" ++ "." ++ "0") ++ ".2," ++
        ("10" ++ "." ++ "20" ++ "." ++ "0") ++ ".254,infinite")) ∧
    bridgeSubNet mkbr0 = some "10.20.0" ∧
    (startDnsmasq (fun dir file => dir ++ "/" ++ file) mkbr0
        { TmpDir := "/tmp" }).map List.getLast? =
      some (some "--dhcp-range=10.20.0.2,10.20.0.254,infinite") :=
  bridgeSubNet_dotted_quad "10" "20" "0" "1" "24" mkbr0
    (fun dir file => dir ++ "/" ++ file) { TmpDir := "/tmp" }
    (by decide) (by decide) (by decide) (by decide) (by decide)

/-! ### Stop is terminal -/

theorem cleanUp_isOn (f : IptFaults) (s s1 : State) (h : cleanUp f s = some s1) :
    s1.isOn = s.isOn := by
  unfold cleanUp at h
  split_ifs at h
  · cases h; rfl
  · cases hloop : cleanUpLoop f s.ruleRegistry s.filter with
    | none => simp [hloop] at h
    | some nf =>
      simp [hloop] at h
      rw [← h]

theorem insertRule_isOn (f : IptFaults) (c : String) (m : IPMode) (T : List String)
    (s : State) : (insertRuleIfNotExists f c m T s).isOn = s.isOn := by
  unfold insertRuleIfNotExists
  simp only []
  split_ifs <;> rfl

theorem processIptables_isOn (f : IptFaults) (bridge : Bridge) (s : State) :
    (processIptables f bridge s).isOn = s.isOn := by
  unfold processIptables
  simp only [insertRule_isOn]

theorem addrAdd_isOn (f : NlFaults) (n : String) (a : Addr) (s : State) :
    (AddrAdd f n a s).isOn = s.isOn := by
  unfold AddrAdd
  split_ifs
  · rfl
  · split
    · rfl
    · split_ifs <;> rfl

theorem addrDel_isOn (f : NlFaults) (n : String) (a : Addr) (s : State) :
    (AddrDel f n a s).isOn = s.isOn := by
  unfold AddrDel
  split_ifs
  · rfl
  · split <;> rfl

theorem foldl_addrDel_isOn (f : NlFaults) (n : String) (L : List Addr) :
    ∀ s : State, (L.foldl (fun s v => AddrDel f n v s) s).isOn = s.isOn := by
  induction L with
  | nil => intro s; rfl
  | cons a t ih =>
    intro s
    rw [List.foldl_cons, ih, addrDel_isOn]

theorem processExistence_isOn (f : NlFaults) (bridge : Bridge) (s : State) :
    (processExistence f bridge s).isOn = s.isOn := by
  unfold processExistence
  split
  · unfold CreateNetBridge
    split_ifs
    · rfl
    · split <;> rfl
  · rfl
  · rfl

theorem processAddr_isOn (f : NlFaults) (bridge : Bridge) (s s1 : State)
    (h : processAddr f bridge s = some s1) : s1.isOn = s.isOn := by
  unfold processAddr at h
  split at h
  · cases h; rfl
  · split at h
    · cases h; rfl
    · simp only [] at h
      split_ifs at h
      · split at h
        · cases h; rfl
        · cases h; rw [addrAdd_isOn]
      · split at h
        · cases h
        · split_ifs at h
          · cases h; rw [addrAdd_isOn, foldl_addrDel_isOn]
          · cases h; rfl

theorem tick_isOn (env : Env) (s : State) :
    (tick env s).map State.isOn = (tick env s).map (fun _ => s.isOn) := by
  unfold tick
  cases h : processAddr env.nl env.bridge (processExistence env.nl env.bridge s) with
  | none => rfl
  | some s1 =>
    simp only [Option.map_some', processIptables_isOn]
    rw [processAddr_isOn _ _ _ _ h, processExistence_isOn]

theorem step_off (a : Action) (s s1 : State) (hoff : s.isOn = false)
    (h : step a s = some s1) : s1.isOn = false := by
  cases a with
  | stop =>
    simp [step, stopDaemon] at h
    rw [← h]
  | iterate env =>
    simp [step, iteration, hoff] at h
    rw [← h]; exact hoff
  | teardown f =>
    rw [cleanUp_isOn f s s1 h]; exact hoff

theorem run_off (acts : List Action) :
    ∀ s : State, s.isOn = false →
      (run acts s).map State.isOn ≠ some true ∧
      run acts s = run (acts.filter (fun a => !a.isIterate)) s := by
  induction acts with
  | nil =>
    intro s hoff
    simp [run, hoff]
  | cons a rest ih =>
    intro s hoff
    cases a with
    | iterate env =>
      have hstep : step (Action.iterate env) s = some s := by
        simp [step, iteration, hoff]
      have := ih s hoff
      simp only [run, hstep, List.filter, Action.isIterate, Bool.not_true]
      exact this
    | stop =>
      have hs := step_off Action.stop s (stopDaemon s) hoff rfl
      have := ih (stopDaemon s) hs
      simp only [run, step, List.filter, Action.isIterate, Bool.not_false]
      exact this
    | teardown f =>
      cases hc : cleanUp f s with
      | none => simp [run, step, hc, List.filter, Action.isIterate]
      | some s1 =>
        have hs := step_off (Action.teardown f) s s1 hoff hc
        have := ih s1 hs
        simp only [run, step, hc, List.filter, Action.isIterate, Bool.not_false]
        exact this

/-- C7: once `stopDaemon` has run, a loop iteration changes nothing (no bridge,
address or filter-table operation: the state, registry and kernel included, is
returned as it is), the loop exits at its next test of the flag, the flag is
never on again after any sequence of `stopDaemon`, iteration and `cleanUp`
steps, such a sequence has the effect it has with its iterations left out (no
reconciliation tick executes again), and a tick, whenever it runs, leaves the
flag as it found it. -/
theorem stop_is_terminal (s : State) :
    (∀ env, iteration env (stopDaemon s) = some (stopDaemon s)) ∧
    (∀ env fuel, reconcileLoop env fuel (stopDaemon s) = LoopResult.exited (stopDaemon s)) ∧
    (∀ acts, (run acts (stopDaemon s)).map State.isOn ≠ some true) ∧
    (∀ acts, run acts (stopDaemon s) =
      run (acts.filter (fun a => !a.isIterate)) (stopDaemon s)) ∧
    (∀ env, (tick env s).map State.isOn = (tick env s).map (fun _ => s.isOn)) := by
  have hoff : (stopDaemon s).isOn = false := rfl
  refine ⟨?_, ?_, ?_, ?_, fun env => tick_isOn env s⟩
  · intro env
    simp [iteration, hoff]
  · intro env fuel
    cases fuel <;> simp [reconcileLoop, hoff]
  · intro acts
    exact (run_off acts _ hoff).1
  · intro acts
    exact (run_off acts _ hoff).2

/-! ### Mutual exclusion of tick and teardown -/

theorem procInv_init (s : State) : ProcInv (Proc.init s) := by
  simp [ProcInv, Proc.init]

theorem procInv_stepLoop (env : Env) (p q : Proc) (h : ProcInv p)
    (hstep : stepLoop env p = some q) : ProcInv q := by
  unfold ProcInv at h ⊢
  unfold stepLoop at hstep
  obtain ⟨st, mutex, loop, sig, crashed⟩ := p
  cases ht : tick env st <;> cases loop <;> cases sig <;> cases mutex <;>
    cases hon : st.isOn <;> simp_all <;> subst hstep <;> simp_all

theorem procInv_stepSignal (env : Env) (p q : Proc) (h : ProcInv p)
    (hstep : stepSignal env p = some q) : ProcInv q := by
  unfold ProcInv at h ⊢
  unfold stepSignal at hstep
  obtain ⟨st, mutex, loop, sig, crashed⟩ := p
  cases hc : cleanUp env.ipt st with
  | none =>
    cases loop <;> cases sig <;> cases mutex <;>
      cases hon : st.isOn <;> simp_all [stopDaemon] <;> subst hstep <;> simp_all
  | some st1 =>
    have hst := cleanUp_isOn env.ipt st st1 hc
    cases loop <;> cases sig <;> cases mutex <;>
      cases hon : st.isOn <;> simp_all [stopDaemon] <;> subst hstep <;> simp_all


theorem procInv_stepThread (env : Env) (t : Thread) (p : Proc) (h : ProcInv p) :
    ProcInv ((stepThread env t p).getD p) := by
  cases hq : stepThread env t p with
  | none => exact h
  | some q =>
    unfold stepThread at hq
    split_ifs at hq
    cases t with
    | loop => exact procInv_stepLoop env p q h hq
    | signal => exact procInv_stepSignal env p q h hq

theorem procInv_exec (sched : List (Env × Thread)) :
    ∀ p : Proc, ProcInv p → ProcInv (exec sched p) := by
  induction sched with
  | nil => intro p h; exact h
  | cons et rest ih =>
    intro p h
    obtain ⟨env, t⟩ := et
    exact ih _ (procInv_stepThread env t p h)

/-- The model is not idle: three steps of the loop put a tick in progress, and
the signal goroutine reaches `cleanUp` when it is scheduled for four steps. -/
theorem exec_reaches_tick_and_cleanUp :
    (exec [(okEnv, Thread.loop), (okEnv, Thread.loop), (okEnv, Thread.loop)]
      (Proc.init State.empty)).loop = LoopPc.ticking ∧
    (exec [(okEnv, Thread.signal), (okEnv, Thread.signal), (okEnv, Thread.signal),
        (okEnv, Thread.signal)] (Proc.init State.empty)).sig = SigPc.cleaning := by
  constructor <;> decide

/-- C8: in every interleaving of the reconciliation loop with the signal
goroutine (`stopDaemon`, then `cleanUp`), from process start over any state,
`cleanUp` is never in progress while a tick is in progress, and a tick in
progress holds `dmux`. The loop being one goroutine, its ticks follow one
another in program order. -/
theorem tick_excludes_cleanUp (sched : List (Env × Thread)) (s : State) :
    ¬ ((exec sched (Proc.init s)).loop = LoopPc.ticking ∧
        (exec sched (Proc.init s)).sig = SigPc.cleaning) ∧
    ((exec sched (Proc.init s)).loop ≠ LoopPc.ticking ∨
        (exec sched (Proc.init s)).mutex = true) := by
  obtain ⟨h1, _, h3, h4⟩ := procInv_exec sched (Proc.init s) (procInv_init s)
  constructor
  · rintro ⟨hl, hs⟩
    have hon := h4 hl
    have hoff := h3 (Or.inr (Or.inl hs))
    rw [hon] at hoff
    exact Bool.noConfusion hoff
  · by_cases hl : (exec sched (Proc.init s)).loop = LoopPc.ticking
    · exact Or.inr (h1 (Or.inr (Or.inl hl))).1
    · exact Or.inl hl

end Mediumkube
